import Mathlib

/-!
# Verification of the brainrot views prediction pipeline

A shallow embedding of the feature-normalization / training / inference
pipeline of the video-virality prediction demos, together with proofs about
the embedded operations.

JS floating-point numbers are modelled as real numbers (`ℝ`); JS arrays as
`List`s (an out-of-range read is modelled by `List.getD` with an explicit
default).  The JS idiom `x || d` on numbers (which yields `d` exactly when
`x` is falsy, i.e. `0`) is modelled by `jsOr`.  CSV text is modelled as
lists of characters so that the splitting, trimming and header checks of the
source stay executable.
-/

namespace Brainrot

/-! ## Basic numeric helpers -/

/-- JS `x || d` for a (non-NaN) number `x`: `d` when `x = 0`, else `x`. -/
noncomputable def jsOr (x d : ℝ) : ℝ := if x = 0 then d else x

/-- Column `j` of a row-major matrix, `X.map(row => row[j])`; a read past the
end of a row is modelled with default `0`. -/
def colOf (X : List (List ℝ)) (j : ℕ) : List ℝ :=
  X.map (fun row => row.getD j 0)

/-- Population mean of a column:
`col.reduce((a, b) => a + b, 0) / col.length`. -/
noncomputable def popMean (l : List ℝ) : ℝ := l.sum / l.length

/-- Population variance of a column:
`col.reduce((a, b) => a + Math.pow(b - mean, 2), 0) / col.length`. -/
noncomputable def popVar (l : List ℝ) : ℝ :=
  ((l.map (fun b => (b - popMean l) ^ 2)).sum) / l.length

/-- Population standard deviation, `Math.sqrt(variance)`. -/
noncomputable def popStd (l : List ℝ) : ℝ := Real.sqrt (popVar l)

/-- JS `Math.min(...)` over a list (used on a non-empty list in the source). -/
noncomputable def listMin : List ℝ → ℝ
  | [] => 0
  | x :: xs => xs.foldl min x

/-- JS `Math.max(...)` over a list (used on a non-empty list in the source). -/
noncomputable def listMax : List ℝ → ℝ
  | [] => 0
  | x :: xs => xs.foldl max x

/-! ## `ViralityPredictor.prepareData` (trainer, `app.js` lines 164-193)

The trainer loops over the feature indices `j = 0 .. 5`; for each `j` it
computes mean / variance / std of column `j` of the current matrix, records
`mean` and `std || 1`, and overwrites column `j` in place with
`(X[i][j] - mean) / (std || 1)`.  Earlier iterations have already rewritten
columns `j' < j`, so we model the loop as a recursion that threads the
partially normalized matrix through. -/

/-- One iteration of the `prepareData` normalization loop: statistics of
column `j` of the current matrix, and the matrix with column `j` rewritten
to `(value - mean) / (std || 1)`. -/
noncomputable def normalizeColumn (X : List (List ℝ)) (j : ℕ) :
    ℝ × ℝ × List (List ℝ) :=
  let m := popMean (colOf X j)
  let sd := popStd (colOf X j)
  (m, sd, X.map (fun row => row.set j ((row.getD j 0 - m) / jsOr sd 1)))

/-- The `for (let j = 0; ...)` loop of `prepareData`, over the list of
feature indices: returns the recorded means, the recorded stds (each pushed
as `std || 1`), and the fully normalized matrix. -/
noncomputable def prepareLoop :
    List ℕ → List (List ℝ) → List ℝ × List ℝ × List (List ℝ)
  | [], X => ([], [], X)
  | j :: js, X =>
    let r := normalizeColumn X j
    let rest := prepareLoop js r.2.2
    (r.1 :: rest.1, jsOr r.2.1 1 :: rest.2.1, rest.2.2)

/-- The six feature columns of the trainer, in their fixed order. -/
def featureNames : List String :=
  ["title_length", "description_length", "edge_intensity",
   "color_histogram", "spectral_entropy", "audio_intensity"]

/-- `X = this.data.map(row => this.features.map(f => row[f]))`: a parsed CSV
row is modelled as a total map from column name to value. -/
def extractMatrix (data : List (String → ℝ)) : List (List ℝ) :=
  data.map (fun row => featureNames.map row)

/-- `y = this.data.map(row => row.virality)`. -/
def extractTargets (data : List (String → ℝ)) : List ℝ :=
  data.map (fun row => row "virality")

/-- Result of `prepareData`: fitted scaler statistics plus the positional
80/20 train/validation split of the normalized matrix and the targets. -/
structure PreparedData where
  mean : List ℝ
  std : List ℝ
  trainX : List (List ℝ)
  valX : List (List ℝ)
  trainY : List ℝ
  valY : List ℝ

/-- `ViralityPredictor.prepareData`: fit the per-column scaler on *all*
parsed rows, normalize every row, then split positionally at
`Math.floor(length * 0.8)` (`= (4 * length) / 5` in exact arithmetic):
`trainX = X.slice(0, splitIdx)`, `valX = X.slice(splitIdx)`. -/
noncomputable def prepareData (data : List (String → ℝ)) : PreparedData :=
  let X := extractMatrix data
  let y := extractTargets data
  let r := prepareLoop (List.range featureNames.length) X
  let splitIdx := (4 * data.length) / 5
  ⟨r.1, r.2.1, r.2.2.take splitIdx, r.2.2.drop splitIdx,
    y.take splitIdx, y.drop splitIdx⟩

/-- Scaler application at inference time
(`(value - this.scaler.mean[idx]) / (this.scaler.std[idx] || 1)` mapped with
index over the feature vector). -/
noncomputable def scalerApply (mean std : List ℝ) (row : List ℝ) : List ℝ :=
  row.mapIdx (fun i v => (v - mean.getD i 0) / jsOr (std.getD i 0) 1)

/-! ## `DataLoader` label transform (`application_v2/data-loader.js`) -/

/-- The fitted label normalizer of `DataLoader.normalizeLabels`. -/
structure LabelNormalizer where
  min : ℝ
  max : ℝ
  originalMin : ℝ
  originalMax : ℝ

/-- The forward log transform applied to each raw label:
`Math.log10(val + 1)`. -/
noncomputable def logLabel (x : ℝ) : ℝ := Real.logb 10 (x + 1)

/-- `DataLoader.normalizeLabels`: log-transform every raw label, record the
min/max of the log labels (and of the raw labels), and rescale each log
label to `(val - min) / (max - min)`.  Returns the fitted normalizer
together with the normalized labels. -/
noncomputable def normalizeLabels (rawLabels : List ℝ) :
    LabelNormalizer × List ℝ :=
  let logLabels := rawLabels.map logLabel
  let mn := listMin logLabels
  let mx := listMax logLabels
  (⟨mn, mx, listMin rawLabels, listMax rawLabels⟩,
    logLabels.map (fun v => (v - mn) / (mx - mn)))

/-- `DataLoader.inverseTransformLabels`: map each prediction `p` to
`p * (max - min) + min` and then reverse the log transform with
`Math.pow(10, p) - 1`. -/
noncomputable def inverseTransformLabels (n : LabelNormalizer)
    (predictions : List ℝ) : List ℝ :=
  predictions.map (fun p => (10 : ℝ) ^ (p * (n.max - n.min) + n.min) - 1)

/-! ## `DataLoader.normalizeFeatures` (min-max variant) -/

/-- `DataLoader.normalizeFeatures`: per feature index `i`, record
`min`/`max` of column `i`; each cell becomes `0` when `max === min`
(the source's division-by-zero guard) and `(value - min) / (max - min)`
otherwise.  The number of features is `rawFeatures[0].length`. -/
noncomputable def dlNormalizeFeatures (raw : List (List ℝ)) :
    List (List ℝ) :=
  let n := (raw.headD []).length
  raw.map (fun row =>
    (List.range n).map (fun i =>
      let mn := listMin (colOf raw i)
      let mx := listMax (colOf raw i)
      if mx = mn then 0 else (row.getD i 0 - mn) / (mx - mn)))

/-! ## Spectral entropy

Two variants appear in the sources.
`ViralityPredictorApp.extractAudioFeatures` (`unnamed/part_001`) builds a
pseudo-spectrum from the raw samples, normalizes it with the guarded sum
`sum || 1`, accumulates `-p * log2 p` over the strictly positive `p`, and
finally takes `Math.min(1, entropy / (maxEntropy || 1))`.
`ViralityPredictorApp.computeSpectralEntropy`
(`virality_predictor/app.js`) does the same over the analyser's byte
frequency data but divides by the raw `sum` (in JS `0/0` is NaN, which
fails the `p > 0` test) and ends with `Math.min(entropy / maxEntropy, 1)`. -/

/-- The pseudo-spectrum of `extractAudioFeatures`: for
`fftSize = Math.min(2048, Math.floor(rawData.length / 2))`, entry `i` is
`Math.sqrt` of the sum over `j < Math.min(10, rawData.length - i)` of
`rawData[i + j * Math.floor(rawData.length / fftSize)] ** 2`. -/
noncomputable def audioSpectrum (rawData : List ℝ) : List ℝ :=
  let fftSize := Min.min 2048 (rawData.length / 2)
  (List.range fftSize).map (fun i =>
    Real.sqrt (((List.range (Min.min 10 (rawData.length - i))).map
      (fun j => (rawData.getD (i + j * (rawData.length / fftSize)) 0) ^ 2)).sum))

/-- The loop body of the entropy accumulation in `extractAudioFeatures`:
`p = spectrum[i] / (sum || 1); if (p > 0) entropy -= p * Math.log2(p)`. -/
noncomputable def entropyTerm (total s : ℝ) : ℝ :=
  let p := s / jsOr total 1
  if p > 0 then -(p * Real.logb 2 p) else 0

/-- Spectral entropy of `extractAudioFeatures` (`unnamed/part_001`,
lines 641-665). -/
noncomputable def extractSpectralEntropy (rawData : List ℝ) : ℝ :=
  let fftSize := Min.min 2048 (rawData.length / 2)
  let spectrum := audioSpectrum rawData
  let entropy := (spectrum.map (entropyTerm spectrum.sum)).sum
  let maxEntropy := Real.logb 2 fftSize
  Min.min 1 (entropy / jsOr maxEntropy 1)

/-- The loop body of the entropy accumulation in `computeSpectralEntropy`:
`p = audioData[i] / sum; if (p > 0) entropy -= p * Math.log2(p)` (no guard
on the divisor in this variant). -/
noncomputable def byteEntropyTerm (total a : ℝ) : ℝ :=
  let p := a / total
  if p > 0 then -(p * Real.logb 2 p) else 0

/-- Spectral entropy of `computeSpectralEntropy`
(`virality_predictor/app.js`, lines 376-397), over the analyser's
frequency-magnitude array. -/
noncomputable def computeSpectralEntropy (audioData : List ℝ) : ℝ :=
  let entropy := (audioData.map (byteEntropyTerm audioData.sum)).sum
  let maxEntropy := Real.logb 2 audioData.length
  Min.min (entropy / maxEntropy) 1

/-! ## CSV parsing

JS strings are modelled as `List Char` so that splitting and trimming stay
structurally recursive and executable.  `String.prototype.split(sep)` and
`String.prototype.trim()` are reimplemented on character lists. -/

/-- JS `s.split(sep)` for a one-character separator. -/
def splitOnSep (sep : Char) : List Char → List (List Char)
  | [] => [[]]
  | c :: cs =>
    match splitOnSep sep cs with
    | [] => [[]]
    | cell :: cells =>
      if c = sep then [] :: cell :: cells else (c :: cell) :: cells

/-- JS `s.split(',')`. -/
def splitOnComma : List Char → List (List Char) := splitOnSep ','

/-- JS `s.trim()`: strip whitespace from both ends. -/
def trimChars (l : List Char) : List Char :=
  ((l.dropWhile Char.isWhitespace).reverse.dropWhile Char.isWhitespace).reverse

/-! ### `DataLoader.loadCSV` (`application_v2/data-loader.js`, lines 22-69)

A parsed data row is represented by its list of object keys (the trimmed
headers, deduplicated as a JS object does); the cell values are produced by
`parseFloat` and play no role in the schema and emptiness checks verified
here. -/

/-- The eight feature columns of the `DataLoader`. -/
def dlFeatureNames : List (List Char) :=
  ["duration_sec".toList, "hook_strength_score".toList, "niche".toList,
   "views_first_hour".toList, "retention_rate".toList,
   "first_3_sec_engagement".toList, "music_type".toList,
   "upload_month".toList]

/-- `requiredColumns = [...this.featureNames, this.labelName]`. -/
def dlRequired : List (List Char) := dlFeatureNames ++ ["views_total".toList]

/-- Failure modes of `DataLoader.loadCSV`: a missing required column, zero
valid rows, or the `TypeError` raised by `values[j].trim()` when a data line
has fewer cells than the header. -/
inductive DLError where
  | missingColumn (col : List Char)
  | emptyData
  | cellTypeError
deriving DecidableEq

/-- The row-parsing loop of `loadCSV`: per data line, split on commas; if
the line has fewer cells than the header, `values[j].trim()` throws a
`TypeError` (modelled as `DLError.cellTypeError`); otherwise the built row
object has one key per distinct trimmed header, and the row is kept exactly
when `Object.keys(row).length === headers.length`. -/
def dlParseData (headers : List (List Char)) :
    List (List Char) → Except DLError (List (List (List Char)))
  | [] => .ok []
  | line :: rest =>
    let values := splitOnComma line
    if values.length < headers.length then .error .cellTypeError
    else
      (dlParseData headers rest).map (fun acc =>
        let keys := (headers.map trimChars).dedup
        if keys.length = headers.length then keys :: acc else acc)

/-- `DataLoader.loadCSV` on the list of records
(`csvText.trim().split('\n')`): header = first record split on commas;
every required column must appear in the raw header cells (the first missing
one, in `requiredColumns` order, is reported); then the data lines are
parsed and an empty result is rejected. -/
def dlLoadRows (rows : List (List Char)) :
    Except DLError (List (List (List Char))) :=
  let headers := splitOnComma (rows.headD [])
  match dlRequired.find? (fun col => !(headers.contains col)) with
  | some col => .error (.missingColumn col)
  | none =>
    match dlParseData headers rows.tail with
    | .error e => .error e
    | .ok data => if data.length = 0 then .error .emptyData else .ok data

/-- `DataLoader.loadCSV` from raw text. -/
def dlLoadCSV (text : String) : Except DLError (List (List (List Char))) :=
  dlLoadRows (splitOnSep '\n' (trimChars text.toList))

/-! ### `ViralityPredictor.handleFileUpload` parsing (`app.js`, lines 93-122)

The trainer's parser: rows whose cell count differs from the header are
dropped; the emptiness check runs first, then the missing-feature check
(against the keys of the first row, i.e. the trimmed headers), then the
target-column check.  As above a row is represented by its key list. -/

/-- Failure modes of the trainer's upload parser. -/
inductive AppParseError where
  | noValidRows
  | missingFeatures (cols : List (List Char))
  | missingTarget
deriving DecidableEq

/-- The six trainer feature names as character lists. -/
def appFeatureNames : List (List Char) :=
  ["title_length".toList, "description_length".toList,
   "edge_intensity".toList, "color_histogram".toList,
   "spectral_entropy".toList, "audio_intensity".toList]

/-- The rows kept by the trainer's parse loop: a data line is kept exactly
when its comma-split cell count equals the header's; the kept row's keys are
the trimmed headers. -/
def appValidRows (headerLine : List Char) (dataLines : List (List Char)) :
    List (List (List Char)) :=
  let headers := splitOnComma headerLine
  dataLines.filterMap (fun line =>
    if (splitOnComma line).length = headers.length
    then some (headers.map trimChars) else none)

/-- `handleFileUpload` validation: `data.length === 0` is checked first
(`'No valid data rows found'`), then the features missing from the first
row (`'Missing features: ...'`), then the `virality` target column. -/
def appParseTable (headerLine : List Char) (dataLines : List (List Char)) :
    Except AppParseError (List (List (List Char))) :=
  let data := appValidRows headerLine dataLines
  if data.length = 0 then .error .noValidRows
  else
    let missing := appFeatureNames.filter (fun f => !((data.headD []).contains f))
    if missing.length ≠ 0 then .error (.missingFeatures missing)
    else if !((data.headD []).contains "virality".toList) then .error .missingTarget
    else .ok data

/-- `handleFileUpload` from raw text: `text.trim().split('\n')`, first
record is the header, the rest are data lines. -/
def appHandleUpload (text : String) :
    Except AppParseError (List (List (List Char))) :=
  let rows := splitOnSep '\n' (trimChars text.toList)
  appParseTable (rows.headD []) rows.tail

/-! ## The inference application (`unnamed/part_001`, first class)

`ViralityPredictorApp` keeps a loaded-model flag and scaler statistics that
the constructor initializes to `mean = [0,...,0]`, `std = [1,...,1]`.
`loadModel` sets the flag and then calls `loadScalerMetadata`, which is a
stub: it only logs and leaves the constructor defaults in place.
`predict` reads the six form fields with `parseFloat`; a non-finite field is
modelled as `none` and is replaced by `0` with a console warning.  The
remaining finiteness re-checks of the source (`isFinite` on each normalized
value and the final `allValid` guard) are identically true over `ℝ` and
cannot fire in this model; the corresponding `throw` is kept as the unused
`PredictError.invalidFeature`. -/

/-- Errors surfaced by the inference app's `predict`. -/
inductive PredictError where
  | modelNotLoaded
  | invalidFeature
deriving DecidableEq

/-- Mutable state of `ViralityPredictorApp`. -/
structure InferApp where
  modelLoaded : Bool
  scalerMean : List ℝ
  scalerStd : List ℝ

/-- The constructor state: no model, default scaler `mean=0`, `std=1`. -/
noncomputable def initialApp : InferApp :=
  ⟨false, List.replicate 6 0, List.replicate 6 1⟩

/-- `loadScalerMetadata`: a stub that keeps the current (default) scaler
("For now, initialize with default values"). -/
noncomputable def loadScalerMetadata (s : InferApp) : InferApp := s

/-- A successful `loadModel`: set `modelLoaded` and call
`loadScalerMetadata`. -/
noncomputable def afterLoadModel (s : InferApp) : InferApp :=
  loadScalerMetadata { s with modelLoaded := true }

/-- The per-index clamping of `predict`: title length to `[0, 500]`,
description length to `[0, 2000]`, the media features to `[0, 1]`. -/
noncomputable def clampFeature (idx : ℕ) (v : ℝ) : ℝ :=
  if idx = 0 then Max.max 0 (Min.min 500 v)
  else if idx = 1 then Max.max 0 (Min.min 2000 v)
  else Max.max 0 (Min.min 1 v)

/-- `ViralityPredictorApp.predict` up to the tensor handed to the network:
refuse when no model is loaded; read each field (`none`, a non-finite
`parseFloat` result, becomes `0`); clamp per index; normalize with
`(v - mean[i]) / (std[i] || 1)`.  The returned vector is the input fed to
`model.predict`. -/
noncomputable def predictVector (s : InferApp) (inputs : List (Option ℝ)) :
    Except PredictError (List ℝ) :=
  if s.modelLoaded = false then .error .modelNotLoaded
  else
    let features := inputs.map (fun o => o.getD 0)
    let clamped := features.mapIdx clampFeature
    .ok (clamped.mapIdx (fun i v =>
      (v - s.scalerMean.getD i 0) / jsOr (s.scalerStd.getD i 0) 1))

/-! ## Trainer concurrency guards -/

/-- Outcome of a `ViralityPredictor.startTraining` call before the epoch
loop: status error when no data is loaded, a bare `return` when a run is
already in flight, or the start of a new run. -/
inductive StartOutcome where
  | errorNoData
  | silentReturn
  | started
deriving DecidableEq

/-- The trainer state touched by `startTraining`'s guards: the loaded data
flag, the in-flight flag, and the in-flight run's accumulated history. -/
structure TrainerFlags where
  hasData : Bool
  isTraining : Bool
  history : List ℝ

/-- The guard section of `startTraining` (`app.js`, lines 232-248):
`if (!this.data) { setStatus('error', ...); return; }`,
`if (this.isTraining) return;`, otherwise mark training and reset the
history for the new run. -/
def startTrainingStep (s : TrainerFlags) : TrainerFlags × StartOutcome :=
  if s.hasData = false then (s, .errorNoData)
  else if s.isTraining then (s, .silentReturn)
  else ({ s with isTraining := true, history := [] }, .started)

/-- Outcome of a `VideoSuccessPredictor.trainModel` call
(`unnamed/part_000`, lines 106-115): `console.warn` and return when busy,
otherwise the run proceeds. -/
inductive TrainCallResult where
  | warnedBusy
  | ran
deriving DecidableEq

/-- The re-entrance guard of `trainModel`. -/
def trainModelCall (isTraining : Bool) : TrainCallResult :=
  if isTraining then .warnedBusy else .ran

/-! ## The cooperative epoch loop (`app.js`, lines 266-311)

`for (let epoch = 0; epoch < epochs && this.isTraining; epoch++) { ... }`:
the stop flag is only consulted in the loop condition, so a
`stopTraining()` request delivered during the body of epoch `e` (modelled
by `stopDuring e = true`) lets that epoch finish — including its history
push — and ends the loop at the next boundary.  After the loop,
`this.isTraining` still being set means normal completion; otherwise the
status becomes the distinct `'Training stopped by user'` warning.  The
`catch` branch (a training failure) is the third status. -/

/-- Terminal status of a training run. -/
inductive TrainStatus where
  | completed
  | stopped
  | failed
deriving DecidableEq

/-- The epoch loop: `e` is the current epoch index, the second argument the
number of remaining iterations allowed by `epoch < epochs`; each iteration
appends its history entry `metrics e`, then the stop flag is re-checked at
the boundary.  Returns the accumulated history and the final value of
`isTraining`. -/
def epochLoopRun (metrics : ℕ → ℝ) (stopDuring : ℕ → Bool) :
    ℕ → ℕ → List ℝ × Bool
  | _, 0 => ([], true)
  | e, n + 1 =>
    if stopDuring e then ([metrics e], false)
    else
      let rest := epochLoopRun metrics stopDuring (e + 1) n
      (metrics e :: rest.1, rest.2)

/-- A full training run: run the epoch loop from epoch `0`, then map the
surviving `isTraining` flag to `'Training completed!'` or the distinct
`'Training stopped by user'` status. -/
def runTraining (epochs : ℕ) (metrics : ℕ → ℝ) (stopDuring : ℕ → Bool) :
    List ℝ × TrainStatus :=
  let r := epochLoopRun metrics stopDuring 0 epochs
  (r.1, if r.2 then .completed else .stopped)

/-! ## Concrete inputs used in the theorems -/

/-- Row 1 of the spec's 3-row training table:
`(10, 100, 0.5, 0.5, 0.5, 0.5, virality 1)`. -/
noncomputable def specRow1 : String → ℝ := fun s =>
  if s = "title_length" then 10
  else if s = "description_length" then 100
  else if s = "virality" then 1 else 1/2

/-- Row 2: `(50, 500, 0.1, 0.9, 0.2, 0.8, virality 0)`. -/
noncomputable def specRow2 : String → ℝ := fun s =>
  if s = "title_length" then 50
  else if s = "description_length" then 500
  else if s = "edge_intensity" then 1/10
  else if s = "color_histogram" then 9/10
  else if s = "spectral_entropy" then 1/5
  else if s = "audio_intensity" then 4/5 else 0

/-- Row 3: `(30, 300, 0.3, 0.3, 0.3, 0.3, virality 1)`. -/
noncomputable def specRow3 : String → ℝ := fun s =>
  if s = "title_length" then 30
  else if s = "description_length" then 300
  else if s = "virality" then 1 else 3/10

/-- The spec's 3-row training table. -/
noncomputable def specTable : List (String → ℝ) := [specRow1, specRow2, specRow3]

/-- A 2-row dataset whose `title_length` column is `[0, 1]`: its population
standard deviation is `1/2`. -/
noncomputable def halfStdData : List (String → ℝ) :=
  [fun _ => 0, fun s => if s = "title_length" then 1 else 0]

/-- Five all-zero rows. -/
noncomputable def splitDataA : List (String → ℝ) :=
  List.replicate 5 (fun _ => (0 : ℝ))

/-- Four all-zero rows plus a fifth row with `title_length = 10`; with five
rows the 80/20 split places that fifth row in the validation part. -/
noncomputable def splitDataB : List (String → ℝ) :=
  List.replicate 4 (fun _ => (0 : ℝ)) ++
    [fun s => if s = "title_length" then 10 else 0]

/-! ## Helper lemmas about the scaler loop -/

theorem getD_set_ne (l : List ℝ) (i j : ℕ) (a : ℝ) (h : i ≠ j) :
    (l.set i a).getD j 0 = l.getD j 0 := by
  simp [List.getD_eq_getElem?_getD, List.getElem?_set_ne h]

/-- Rewriting column `j` in place leaves every other column unchanged. -/
theorem colOf_normalizeColumn_ne (X : List (List ℝ)) (j j' : ℕ)
    (h : j' ≠ j) : colOf (normalizeColumn X j).2.2 j' = colOf X j' := by
  simp only [normalizeColumn, colOf, List.map_map]
  refine List.map_congr_left fun row _ => ?_
  exact getD_set_ne row j j' _ (fun e => h e.symm)

theorem normalizeColumn_fst (X : List (List ℝ)) (j : ℕ) :
    (normalizeColumn X j).1 = popMean (colOf X j) := rfl

theorem normalizeColumn_snd_fst (X : List (List ℝ)) (j : ℕ) :
    (normalizeColumn X j).2.1 = popStd (colOf X j) := rfl

/-- Although the loop normalizes columns in place as it goes, the
statistics it records for each index `j` are those of column `j` of the
*original* matrix, because earlier iterations only touched other columns. -/
theorem prepareLoop_stats (js : List ℕ) (X : List (List ℝ))
    (h : js.Nodup) :
    (prepareLoop js X).1 = js.map (fun j => popMean (colOf X j)) ∧
    (prepareLoop js X).2.1 = js.map (fun j => jsOr (popStd (colOf X j)) 1) := by
  induction js generalizing X with
  | nil => simp [prepareLoop]
  | cons j js ih =>
    obtain ⟨hj, hjs⟩ := List.nodup_cons.mp h
    have hcol : ∀ j' ∈ js, colOf (normalizeColumn X j).2.2 j' = colOf X j' :=
      fun j' hj' => colOf_normalizeColumn_ne X j j' (fun e => hj (e ▸ hj'))
    have hrec := ih (normalizeColumn X j).2.2 hjs
    refine ⟨?_, ?_⟩
    · have h1 : (prepareLoop (j :: js) X).1 =
        (normalizeColumn X j).1 ::
          (prepareLoop js (normalizeColumn X j).2.2).1 := rfl
      rw [h1, hrec.1, normalizeColumn_fst, List.map_cons]
      exact congrArg _ (List.map_congr_left fun j' hj' => by rw [hcol j' hj'])
    · have h2 : (prepareLoop (j :: js) X).2.1 =
        jsOr (normalizeColumn X j).2.1 1 ::
          (prepareLoop js (normalizeColumn X j).2.2).2.1 := rfl
      rw [h2, hrec.2, normalizeColumn_snd_fst, List.map_cons]
      exact congrArg _ (List.map_congr_left fun j' hj' => by rw [hcol j' hj'])

theorem prepareData_mean (data : List (String → ℝ)) :
    (prepareData data).mean =
      (List.range 6).map (fun j => popMean (colOf (extractMatrix data) j)) :=
  (prepareLoop_stats (List.range 6) (extractMatrix data) (List.nodup_range 6)).1

theorem prepareData_std (data : List (String → ℝ)) :
    (prepareData data).std =
      (List.range 6).map
        (fun j => jsOr (popStd (colOf (extractMatrix data) j)) 1) :=
  (prepareLoop_stats (List.range 6) (extractMatrix data) (List.nodup_range 6)).2

theorem range_map_getD (n j : ℕ) (h : j < n) (f : ℕ → ℝ) :
    ((List.range n).map f).getD j 0 = f j := by
  simp [List.getD_eq_getElem?_getD, List.getElem?_map, List.getElem?_range h]

theorem prepareData_mean_getD (data : List (String → ℝ)) (j : ℕ)
    (h : j < 6) :
    (prepareData data).mean.getD j 0 =
      popMean (colOf (extractMatrix data) j) := by
  rw [prepareData_mean, range_map_getD 6 j h]

theorem prepareData_std_getD (data : List (String → ℝ)) (j : ℕ)
    (h : j < 6) :
    (prepareData data).std.getD j 0 =
      jsOr (popStd (colOf (extractMatrix data) j)) 1 := by
  rw [prepareData_std, range_map_getD 6 j h]

theorem scalerApply_getD (mean std : List ℝ) (row : List ℝ) (j : ℕ)
    (h : j < row.length) :
    (scalerApply mean std row).getD j 0 =
      (row.getD j 0 - mean.getD j 0) / jsOr (std.getD j 0) 1 := by
  simp [scalerApply, List.getD_eq_getElem?_getD, List.getElem?_mapIdx,
    List.getElem?_eq_getElem h]

/-! ## The epoch loop under a stop request -/

theorem map_range_shift (f : ℕ → ℝ) (e k : ℕ) :
    f e :: (List.range (k + 1)).map (fun i => f (e + 1 + i)) =
      (List.range (k + 1 + 1)).map (fun i => f (e + i)) := by
  conv_rhs => rw [List.range_succ_eq_map]
  simp only [List.map_cons, List.map_map]
  congr 1
  exact List.map_congr_left fun i _ => congrArg f (by omega)

/-- If the first stop request arrives during epoch `e + k` and the loop has
more than `k` allowed iterations left, it runs exactly the epochs
`e, e+1, ..., e+k`, keeps their history entries, and ends with the
`isTraining` flag cleared. -/
theorem epochLoopRun_stop (metrics : ℕ → ℝ) (stopDuring : ℕ → Bool) :
    ∀ (k n e : ℕ), k < n → stopDuring (e + k) = true →
      (∀ j < k, stopDuring (e + j) = false) →
      epochLoopRun metrics stopDuring e n =
        ((List.range (k + 1)).map (fun i => metrics (e + i)), false) := by
  intro k
  induction k with
  | zero =>
    intro n e hn hstop _
    obtain ⟨m, rfl⟩ := Nat.exists_eq_succ_of_ne_zero (Nat.pos_iff_ne_zero.mp hn)
    simp only [epochLoopRun, Nat.add_zero] at hstop ⊢
    rw [hstop]
    simp [List.range_succ]
  | succ k ih =>
    intro n e hn hstop hbefore
    obtain ⟨m, rfl⟩ := Nat.exists_eq_succ_of_ne_zero
      (Nat.pos_iff_ne_zero.mp (Nat.lt_of_le_of_lt (Nat.zero_le _) hn))
    have h0 : stopDuring e = false := by
      have := hbefore 0 (Nat.succ_pos k)
      simpa using this
    have hrec := ih m (e + 1) (Nat.lt_of_succ_lt_succ hn)
      (by rw [show e + 1 + k = e + (k + 1) by omega]; exact hstop)
      (fun j hj => by
        rw [show e + 1 + j = e + (j + 1) by omega]
        exact hbefore (j + 1) (Nat.succ_lt_succ hj))
    simp only [epochLoopRun, h0, Bool.false_eq_true, if_false, hrec]
    exact congrArg₂ Prod.mk (map_range_shift metrics e k) rfl

/-- Claim C9: a stop signal raised during training is observed at an epoch
boundary and ends the epoch loop early: every history entry appended before
the stop is preserved (the run's history is exactly the entries of epochs
`0 .. k` when the stop arrives during epoch `k`), no further epochs run,
and the run finishes with the distinct `stopped` status (`'Training stopped
by user'`), which is neither the completion status nor the failure
status. -/
theorem c9_stop_signal_epoch_boundary (epochs k : ℕ) (metrics : ℕ → ℝ)
    (stopDuring : ℕ → Bool) (hk : k < epochs) (hstop : stopDuring k = true)
    (hbefore : ∀ j < k, stopDuring j = false) :
    runTraining epochs metrics stopDuring =
      ((List.range (k + 1)).map metrics, TrainStatus.stopped) ∧
    TrainStatus.stopped ≠ TrainStatus.completed ∧
    TrainStatus.stopped ≠ TrainStatus.failed := by
  refine ⟨?_, by simp, by simp⟩
  have h := epochLoopRun_stop metrics stopDuring k epochs 0 hk
    (by simpa using hstop) (fun j hj => by simpa using hbefore j hj)
  simp only [runTraining, h, Bool.false_eq_true, if_false]
  exact congrArg₂ _ (List.map_congr_left fun i _ => by simp) rfl

/-- Witness for C9 at a concrete run: five allowed epochs, a stop request
delivered during epoch 2. -/
theorem c9_stop_signal_epoch_boundary_witness :
    (2 < 5 ∧ ((fun n => n == 2) : ℕ → Bool) 2 = true ∧
      ∀ j < 2, ((fun n => n == 2) : ℕ → Bool) j = false) ∧
    runTraining 5 (fun n => (n : ℝ)) (fun n => n == 2) =
      ((List.range 3).map (fun n => (n : ℝ)), TrainStatus.stopped) ∧
    TrainStatus.stopped ≠ TrainStatus.completed ∧
    TrainStatus.stopped ≠ TrainStatus.failed := by
  refine ⟨⟨by norm_num, rfl, by decide⟩, ?_⟩
  exact c9_stop_signal_epoch_boundary 5 2 (fun n => (n : ℝ)) (fun n => n == 2)
    (by norm_num) rfl (by decide)

/-! ## Concurrent fit calls -/

/-- Claim C8 counterexample: with data loaded and a run already in flight
(and the in-flight run's history non-empty), a second `startTraining` call
returns silently — the outcome is a bare `return`, not a raised error (the
only error path of the guard section is the missing-data status), and the
state, including the in-flight history, is unchanged.  Likewise
`trainModel` in the regression variant only logs a warning.  No
`TrainingInProgressError` exists anywhere in the code. -/
theorem c8_concurrent_fit_counterexample :
    startTrainingStep ⟨true, true, [1]⟩ = (⟨true, true, [1]⟩, .silentReturn) ∧
    StartOutcome.silentReturn ≠ StartOutcome.errorNoData ∧
    trainModelCall true = .warnedBusy :=
  ⟨rfl, by simp, rfl⟩

/-- Claim C8, amended: calling fit while a training run is already in
progress on the same model handle is rejected by an early return (silent in
the trainer, a logged warning in the regression variant) — it is not
queued, and it does not mutate the in-flight run's state or history — but
no `TrainingInProgressError` is raised. -/
theorem c8_concurrent_fit_amended (s : TrainerFlags)
    (hdata : s.hasData = true) (hbusy : s.isTraining = true) :
    startTrainingStep s = (s, .silentReturn) ∧
    trainModelCall s.isTraining = .warnedBusy := by
  constructor
  · simp [startTrainingStep, hdata, hbusy]
  · simp [trainModelCall, hbusy]

/-- Witness for C8 at a concrete busy state. -/
theorem c8_concurrent_fit_amended_witness :
    ((⟨true, true, [1]⟩ : TrainerFlags).hasData = true ∧
      (⟨true, true, [1]⟩ : TrainerFlags).isTraining = true) ∧
    startTrainingStep ⟨true, true, [1]⟩ = (⟨true, true, [1]⟩, .silentReturn) ∧
    trainModelCall (⟨true, true, [1]⟩ : TrainerFlags).isTraining = .warnedBusy :=
  ⟨⟨rfl, rfl⟩, c8_concurrent_fit_amended ⟨true, true, [1]⟩ rfl rfl⟩

/-! ## Loading without scaler statistics, and predict's guards -/

/-- Claim C3 counterexample: after a successful model load with no scaler
metadata, the app still holds the constructor defaults `mean = 0`,
`std = 1`, and `predict` on a well-formed input runs to completion — the
input vector `(v - 0) / 1 = v` is handed to the network.  Loading weights
without matching statistics is silently tolerated, not rejected. -/
theorem c3_missing_stats_counterexample :
    (afterLoadModel initialApp).scalerMean = List.replicate 6 0 ∧
    (afterLoadModel initialApp).scalerStd = List.replicate 6 1 ∧
    predictVector (afterLoadModel initialApp)
        [some 30, some 300, some (1/2), some (1/2), some (1/2), some (1/2)] =
      .ok [30, 300, 1/2, 1/2, 1/2, 1/2] := by
  refine ⟨rfl, rfl, ?_⟩
  simp only [predictVector, afterLoadModel, loadScalerMetadata, initialApp,
    clampFeature, jsOr]
  norm_num [clampFeature, List.mapIdx, List.mapIdx.go, min_def, max_def, List.getD]

/-- Claim C3, amended: loading model weights without matching fitted scaler
statistics is silently tolerated: the constructor fabricates the defaults
`mean = [0,...,0]`, `std = [1,...,1]`, the `loadScalerMetadata` stub leaves
any state unchanged, and `predict` after such a load always produces a
prediction (never an error) using those default statistics. -/
theorem c3_missing_stats_silent_defaults :
    (∀ s : InferApp, loadScalerMetadata s = s) ∧
    (afterLoadModel initialApp).scalerMean = List.replicate 6 0 ∧
    (afterLoadModel initialApp).scalerStd = List.replicate 6 1 ∧
    ∀ inputs : List (Option ℝ),
      ∃ v, predictVector (afterLoadModel initialApp) inputs = .ok v :=
  ⟨fun _ => rfl, rfl, rfl, fun _ => ⟨_, rfl⟩⟩

/-- Claim C7 counterexample: a non-finite first feature (`parseFloat`
returned NaN, modelled by `none`) does not make `predict` fail with an
`InvalidFeatureError`; the value is replaced by `0` with only a console
warning and the prediction proceeds. -/
theorem c7_nonfinite_feature_counterexample :
    predictVector (afterLoadModel initialApp)
        [none, some 300, some (1/2), some (1/2), some (1/2), some (1/2)] =
      .ok [0, 300, 1/2, 1/2, 1/2, 1/2] ∧
    (Except.ok [0, 300, 1/2, 1/2, 1/2, 1/2] :
        Except PredictError (List ℝ)) ≠
      Except.error PredictError.invalidFeature := by
  constructor
  · simp only [predictVector, afterLoadModel, loadScalerMetadata, initialApp,
      clampFeature, jsOr]
    norm_num [clampFeature, List.mapIdx, List.mapIdx.go, min_def, max_def, List.getD]
  · simp

/-- Claim C7, amended: `predict` refuses to run with a model-not-loaded
error when the weights are absent (the scaler statistics are never checked
— the fabricated defaults are always present), and when the model is
loaded it *never* fails on the features: every non-finite extracted feature
is replaced by `0`, then clamped and normalized, and the resulting
well-defined real vector is fed to the network. -/
theorem c7_predict_guards_amended (s : InferApp) (inputs : List (Option ℝ)) :
    (s.modelLoaded = false →
      predictVector s inputs = .error .modelNotLoaded) ∧
    (s.modelLoaded = true →
      predictVector s inputs =
        .ok (((inputs.map (fun o => o.getD 0)).mapIdx clampFeature).mapIdx
          (fun i v => (v - s.scalerMean.getD i 0) /
            jsOr (s.scalerStd.getD i 0) 1))) := by
  constructor
  · intro h
    simp [predictVector, h]
  · intro h
    simp [predictVector, h]

/-- Witness for C7 at concrete states: the unloaded constructor state is
refused, a loaded state never errors. -/
theorem c7_predict_guards_amended_witness :
    (initialApp.modelLoaded = false ∧
      predictVector initialApp [some 1] = .error .modelNotLoaded) ∧
    ((afterLoadModel initialApp).modelLoaded = true ∧
      predictVector (afterLoadModel initialApp) [none] =
        .ok ((([none].map (fun o => Option.getD o 0)).mapIdx clampFeature).mapIdx
          (fun i v =>
            (v - (afterLoadModel initialApp).scalerMean.getD i 0) /
              jsOr ((afterLoadModel initialApp).scalerStd.getD i 0) 1))) :=
  ⟨⟨rfl, (c7_predict_guards_amended initialApp [some 1]).1 rfl⟩,
    ⟨rfl, (c7_predict_guards_amended (afterLoadModel initialApp) [none]).2 rfl⟩⟩

/-! ## The label transform round-trip (Claim C2) -/

/-- Claim C2: for every raw label list whose fitted log-range is
non-degenerate and whose labels are positive, `inverseTransformLabels`
exactly inverts `normalizeLabels`: the forward `log10(x+1)` plus min-max
rescaling is undone by `p * (max - min) + min` followed by `10^p - 1`.
Over `ℝ` the round trip is exact (floating-point tolerance is not needed).
-/
theorem c2_label_transform_roundtrip (raw : List ℝ)
    (hdeg : (normalizeLabels raw).1.min ≠ (normalizeLabels raw).1.max)
    (hpos : ∀ x ∈ raw, 0 < x) :
    inverseTransformLabels (normalizeLabels raw).1 (normalizeLabels raw).2 =
      raw := by
  have hmm : listMin (raw.map logLabel) ≠ listMax (raw.map logLabel) := hdeg
  have hne : listMax (raw.map logLabel) - listMin (raw.map logLabel) ≠ 0 :=
    sub_ne_zero.mpr (Ne.symm hmm)
  show ((raw.map logLabel).map (fun v =>
      (v - listMin (raw.map logLabel)) /
        (listMax (raw.map logLabel) - listMin (raw.map logLabel)))).map
    (fun p => (10 : ℝ) ^
      (p * (listMax (raw.map logLabel) - listMin (raw.map logLabel)) +
        listMin (raw.map logLabel)) - 1) = raw
  rw [List.map_map, List.map_map]
  have hpt : ∀ x ∈ raw,
      (10 : ℝ) ^ (((logLabel x - listMin (raw.map logLabel)) /
          (listMax (raw.map logLabel) - listMin (raw.map logLabel))) *
            (listMax (raw.map logLabel) - listMin (raw.map logLabel)) +
          listMin (raw.map logLabel)) - 1 = x := by
    intro x hx
    rw [div_mul_cancel₀ _ hne, sub_add_cancel]
    have hx1 : (0 : ℝ) < x + 1 := by have := hpos x hx; linarith
    rw [logLabel, Real.rpow_logb (by norm_num) (by norm_num) hx1]
    ring
  calc raw.map _ = raw.map id := List.map_congr_left fun x hx => hpt x hx
    _ = raw := List.map_id raw

/-- Witness for C2 on the concrete label list `[9, 99]`, whose log labels
are `[1, 2]`. -/
theorem c2_label_transform_roundtrip_witness :
    (normalizeLabels [9, 99]).1.min ≠ (normalizeLabels [9, 99]).1.max ∧
    (∀ x ∈ ([9, 99] : List ℝ), 0 < x) ∧
    inverseTransformLabels (normalizeLabels [9, 99]).1
        (normalizeLabels [9, 99]).2 = [9, 99] := by
  have l9 : logLabel 9 = 1 := by
    rw [logLabel, show (9 : ℝ) + 1 = 10 by norm_num]
    exact Real.logb_self_eq_one (by norm_num)
  have l99 : logLabel 99 = 2 := by
    rw [logLabel, show (99 : ℝ) + 1 = 10 ^ (2 : ℕ) by norm_num]
    rw [Real.logb, Real.log_pow]
    have h10 : Real.log 10 ≠ 0 := ne_of_gt (Real.log_pos (by norm_num))
    field_simp
  have hd : (normalizeLabels [9, 99]).1.min ≠ (normalizeLabels [9, 99]).1.max := by
    show listMin ([9, 99].map logLabel) ≠ listMax ([9, 99].map logLabel)
    simp only [List.map_cons, List.map_nil, l9, l99, listMin, listMax,
      List.foldl]
    norm_num [min_def, max_def]
  have hp : ∀ x ∈ ([9, 99] : List ℝ), 0 < x := by
    intro x hx
    simp only [List.mem_cons, List.mem_singleton, List.not_mem_nil,
      or_false] at hx
    rcases hx with rfl | rfl <;> norm_num
  exact ⟨hd, hp, c2_label_transform_roundtrip [9, 99] hd hp⟩

/-! ## Silence gives zero spectral entropy (Claim C5) -/

theorem getD_replicate_zero (n i : ℕ) :
    (List.replicate n (0 : ℝ)).getD i 0 = 0 := by
  simp only [List.getD_eq_getElem?_getD, List.getElem?_replicate]
  split <;> rfl

theorem entropyTerm_of_zero (t : ℝ) : entropyTerm t 0 = 0 := by
  simp [entropyTerm, zero_div]

theorem byteEntropyTerm_of_zero (t : ℝ) : byteEntropyTerm t 0 = 0 := by
  simp [byteEntropyTerm, zero_div]

/-- Every entry of the pseudo-spectrum of an all-zero buffer is `0`. -/
theorem audioSpectrum_silent (n : ℕ) :
    ∀ s ∈ audioSpectrum (List.replicate n 0), s = 0 := by
  intro s hs
  simp only [audioSpectrum, List.mem_map, List.mem_range] at hs
  obtain ⟨i, -, rfl⟩ := hs
  have h0 : ((List.range (Min.min 10 ((List.replicate n (0:ℝ)).length - i))).map
      (fun j => ((List.replicate n (0:ℝ)).getD
        (i + j * ((List.replicate n (0:ℝ)).length /
          Min.min 2048 ((List.replicate n (0:ℝ)).length / 2))) 0) ^ 2)).sum = 0 := by
    refine List.sum_eq_zero fun x hx => ?_
    simp only [List.mem_map, List.mem_range] at hx
    obtain ⟨j, -, rfl⟩ := hx
    rw [getD_replicate_zero]
    ring
  rw [h0, Real.sqrt_zero]

/-- Claim C5: for an all-zero (silent) audio buffer the computed
`spectral_entropy` is exactly `0`; when the total spectrum magnitude is
`0`, both entropy computations return `0` instead of producing a
meaningless value.  (`extractAudioFeatures` guards the division with
`sum || 1`; `computeSpectralEntropy` is stated for the analyser's
`fftSize/2 ≥ 2` bins, the regime in which the JS `p > 0` test also filters
the unguarded `0/0`.) -/
theorem c5_silent_audio_entropy_zero :
    (∀ n : ℕ, extractSpectralEntropy (List.replicate n 0) = 0) ∧
    (∀ m : ℕ, 2 ≤ m → computeSpectralEntropy (List.replicate m 0) = 0) := by
  constructor
  · intro n
    have hsum : ((audioSpectrum (List.replicate n 0)).map
        (entropyTerm (audioSpectrum (List.replicate n 0)).sum)).sum = 0 := by
      refine List.sum_eq_zero fun t ht => ?_
      simp only [List.mem_map] at ht
      obtain ⟨s, hs, rfl⟩ := ht
      rw [audioSpectrum_silent n s hs, entropyTerm_of_zero]
    simp only [extractSpectralEntropy, hsum, zero_div]
    norm_num [min_def]
  · intro m hm
    have hsum : ((List.replicate m (0:ℝ)).map
        (byteEntropyTerm (List.replicate m (0:ℝ)).sum)).sum = 0 := by
      refine List.sum_eq_zero fun t ht => ?_
      simp only [List.mem_map] at ht
      obtain ⟨s, hs, rfl⟩ := ht
      rw [List.eq_of_mem_replicate hs, byteEntropyTerm_of_zero]
    simp only [computeSpectralEntropy, hsum, zero_div]
    norm_num [min_def]

/-- Witness for C5 at the analyser's actual bin count (`fftSize = 2048`,
`frequencyBinCount = 1024`) and a concrete raw buffer length. -/
theorem c5_silent_audio_entropy_zero_witness :
    extractSpectralEntropy (List.replicate 8 0) = 0 ∧
    (2 ≤ 1024 ∧ computeSpectralEntropy (List.replicate 1024 0) = 0) :=
  ⟨c5_silent_audio_entropy_zero.1 8,
    ⟨by norm_num, c5_silent_audio_entropy_zero.2 1024 (by norm_num)⟩⟩

/-! ## Dataset parse failures (Claim C4) -/

/-- Claim C4: parsing fails with a schema error *naming* a missing column
whenever any required feature or target column is absent from the header
(`DataLoader.loadCSV` checks this before touching any data row), and fails
with the distinct empty-dataset error when zero valid data rows remain
after parsing (shown both for `loadCSV`, when its row loop completes with
no rows, and unconditionally for the trainer's
`handleFileUpload` parser, whose emptiness check runs first); the two
errors are distinct constructors. -/
theorem c4_dataset_parse_errors :
    (∀ rows : List (List Char),
      (∃ c ∈ dlRequired,
        (splitOnComma (rows.headD [])).contains c = false) →
      ∃ c, dlLoadRows rows = .error (.missingColumn c) ∧ c ∈ dlRequired ∧
        (splitOnComma (rows.headD [])).contains c = false) ∧
    (∀ rows : List (List Char),
      (∀ c ∈ dlRequired,
        (splitOnComma (rows.headD [])).contains c = true) →
      dlParseData (splitOnComma (rows.headD [])) rows.tail = .ok [] →
      dlLoadRows rows = .error .emptyData) ∧
    (∀ (headerLine : List Char) (dataLines : List (List Char)),
      appValidRows headerLine dataLines = [] →
      appParseTable headerLine dataLines = .error .noValidRows) ∧
    (∀ c, DLError.missingColumn c ≠ DLError.emptyData) := by
  refine ⟨?_, ?_, ?_, by intro c; simp⟩
  · intro rows hex
    have hsome : (dlRequired.find?
        (fun col => !((splitOnComma (rows.headD [])).contains col))).isSome := by
      rw [List.find?_isSome]
      obtain ⟨c, hc, hcc⟩ := hex
      exact ⟨c, hc, by simpa using hcc⟩
    obtain ⟨c, hfind⟩ := Option.isSome_iff_exists.mp hsome
    refine ⟨c, ?_, List.mem_of_find?_eq_some hfind, ?_⟩
    · simp only [dlLoadRows]
      rw [hfind]
    · have := List.find?_some hfind
      simpa using this
  · intro rows hall hparse
    have hfind : dlRequired.find?
        (fun col => !((splitOnComma (rows.headD [])).contains col)) = none := by
      rw [List.find?_eq_none]
      intro x hx
      simpa using hall x hx
    simp only [dlLoadRows]
    rw [hfind, hparse]
    rfl
  · intro headerLine dataLines h
    simp [appParseTable, h]

/-- Witness for C4 on concrete tables: a header missing
`hook_strength_score` is rejected with an error naming a missing column, a
header-only table is rejected as empty, and a table with zero valid data
rows trips the trainer's distinct empty-rows error. -/
theorem c4_dataset_parse_errors_witness :
    ((∃ c ∈ dlRequired,
        (splitOnComma
          (["duration_sec,views_total".toList,
            "1,2".toList].headD [])).contains c = false) ∧
      (∃ c, dlLoadRows ["duration_sec,views_total".toList, "1,2".toList] =
          .error (.missingColumn c) ∧ c ∈ dlRequired ∧
          (splitOnComma
            (["duration_sec,views_total".toList,
              "1,2".toList].headD [])).contains c = false)) ∧
    dlLoadRows [("duration_sec,hook_strength_score,niche,views_first_hour," ++
        "retention_rate,first_3_sec_engagement,music_type,upload_month," ++
        "views_total").toList] = .error .emptyData ∧
    appParseTable "a,b".toList [] = .error .noValidRows := by
  refine ⟨⟨by decide, c4_dataset_parse_errors.1 _ (by decide)⟩, ?_, ?_⟩
  · exact c4_dataset_parse_errors.2.1 _ (by decide) rfl
  · exact c4_dataset_parse_errors.2.2.1 _ [] rfl

/-! ## Scaler fit and apply (Claim C1) -/

theorem specTable_col0 : colOf (extractMatrix specTable) 0 = [10, 50, 30] := by
  simp [colOf, extractMatrix, specTable, featureNames, specRow1, specRow2,
    specRow3]

theorem popMean_specCol : popMean [(10 : ℝ), 50, 30] = 30 := by
  simp [popMean]
  norm_num

theorem popVar_specCol : popVar [(10 : ℝ), 50, 30] = 800 / 3 := by
  simp [popVar, popMean]
  norm_num

theorem popStd_specCol_ne : popStd [(10 : ℝ), 50, 30] ≠ 0 := by
  rw [popStd, popVar_specCol]
  exact Real.sqrt_ne_zero'.mpr (by norm_num)

/-- Claim C1: for every non-empty dataset, the scaler fit of `prepareData`
records, per feature index, the population mean of that column, and — on
any column whose population standard deviation is non-zero — the population
standard deviation itself, and applying the fitted scaler divides each
field's deviation from the mean by that standard deviation.  On the spec's
3-row table the fitted `title_length` mean is `30` and the z-score of the
first row's `title_length` is `(10 - 30) / √(800/3) ≈ -1.2247`. -/
theorem c1_scaler_fit_population_stats :
    (∀ data : List (String → ℝ), data ≠ [] → ∀ j : ℕ, j < 6 →
      (prepareData data).mean.getD j 0 =
        popMean (colOf (extractMatrix data) j) ∧
      (popStd (colOf (extractMatrix data) j) ≠ 0 →
        (prepareData data).std.getD j 0 =
          popStd (colOf (extractMatrix data) j) ∧
        ∀ row : List ℝ, j < row.length →
          (scalerApply (prepareData data).mean (prepareData data).std
              row).getD j 0 =
            (row.getD j 0 - popMean (colOf (extractMatrix data) j)) /
              popStd (colOf (extractMatrix data) j))) ∧
    ((prepareData specTable).mean.getD 0 0 = 30 ∧
      |(scalerApply (prepareData specTable).mean (prepareData specTable).std
          [10, 100, 1/2, 1/2, 1/2, 1/2]).getD 0 0 - (-1.2247)| ≤ 0.001) := by
  constructor
  · intro data _ j hj
    refine ⟨prepareData_mean_getD data j hj, fun hstd => ⟨?_, ?_⟩⟩
    · rw [prepareData_std_getD data j hj]
      simp [jsOr, hstd]
    · intro row hrow
      rw [scalerApply_getD _ _ row j hrow, prepareData_mean_getD data j hj,
        prepareData_std_getD data j hj]
      simp [jsOr, hstd]
  · constructor
    · rw [prepareData_mean_getD specTable 0 (by norm_num), specTable_col0,
        popMean_specCol]
    · rw [scalerApply_getD _ _ _ 0 (by norm_num),
        prepareData_mean_getD specTable 0 (by norm_num),
        prepareData_std_getD specTable 0 (by norm_num), specTable_col0,
        popMean_specCol]
      simp only [jsOr, popStd_specCol_ne, if_false, List.getD_cons_zero]
      rw [popStd, popVar_specCol]
      have hs2 : Real.sqrt (800/3) ^ 2 = 800/3 := Real.sq_sqrt (by norm_num)
      have hs0 : (0:ℝ) < Real.sqrt (800/3) := Real.sqrt_pos.mpr (by norm_num)
      have hlb : (16.3299:ℝ) ≤ Real.sqrt (800/3) := by nlinarith [hs2, hs0]
      have hub : Real.sqrt (800/3) ≤ (16.33:ℝ) := by nlinarith [hs2, hs0]
      have hdiv : (10 - 30:ℝ)/Real.sqrt (800/3) * Real.sqrt (800/3) = 10 - 30 :=
        div_mul_cancel₀ _ (ne_of_gt hs0)
      rw [abs_le]
      constructor <;> nlinarith [hdiv, hlb, hub, hs0]

/-- Witness for C1 at the spec's table, feature index `0` and its first
row. -/
theorem c1_scaler_fit_population_stats_witness :
    (specTable ≠ [] ∧ (0:ℕ) < 6 ∧
      popStd (colOf (extractMatrix specTable) 0) ≠ 0 ∧
      (0:ℕ) < ([10, 100, 1/2, 1/2, 1/2, 1/2] : List ℝ).length) ∧
    ((prepareData specTable).mean.getD 0 0 =
        popMean (colOf (extractMatrix specTable) 0) ∧
      (prepareData specTable).std.getD 0 0 =
        popStd (colOf (extractMatrix specTable) 0) ∧
      (scalerApply (prepareData specTable).mean (prepareData specTable).std
          [10, 100, 1/2, 1/2, 1/2, 1/2]).getD 0 0 =
        (([10, 100, 1/2, 1/2, 1/2, 1/2] : List ℝ).getD 0 0 -
            popMean (colOf (extractMatrix specTable) 0)) /
          popStd (colOf (extractMatrix specTable) 0)) := by
  have hne : specTable ≠ [] := by simp [specTable]
  have hstd : popStd (colOf (extractMatrix specTable) 0) ≠ 0 := by
    rw [specTable_col0]
    exact popStd_specCol_ne
  have h := (c1_scaler_fit_population_stats.1 specTable hne 0 (by norm_num))
  have h2 := h.2 hstd
  exact ⟨⟨hne, by norm_num, hstd, by norm_num⟩,
    ⟨h.1, h2.1, h2.2 _ (by norm_num)⟩⟩

/-! ## The scale denominator (Claim C6) -/

/-- Claim C6 counterexample: on a dataset whose `title_length` column is
`[0, 1]` the stored standard deviation is `1/2`, which is smaller than `1`:
the `std || 1` idiom only replaces an exact `0` by `1`, it does not floor
the denominator at `1`. -/
theorem c6_std_floor_counterexample :
    (prepareData halfStdData).std.getD 0 0 = 1/2 ∧
    ¬ ((1:ℝ) ≤ (prepareData halfStdData).std.getD 0 0) := by
  have hcol : colOf (extractMatrix halfStdData) 0 = [0, 1] := by
    simp [colOf, extractMatrix, halfStdData, featureNames]
  have hv : popVar [(0:ℝ), 1] = 1/4 := by
    simp [popVar, popMean]
    norm_num
  have hs : popStd [(0:ℝ), 1] = 1/2 := by
    rw [popStd, hv, show (1/4:ℝ) = (1/2)^2 by norm_num,
      Real.sqrt_sq (by norm_num : (0:ℝ) ≤ 1/2)]
  have h : (prepareData halfStdData).std.getD 0 0 = 1/2 := by
    rw [prepareData_std_getD halfStdData 0 (by norm_num), hcol, hs, jsOr,
      if_neg (by norm_num)]
  exact ⟨h, by rw [h]; norm_num⟩

theorem foldl_min_le_init (xs : List ℝ) : ∀ a : ℝ, xs.foldl min a ≤ a := by
  induction xs with
  | nil => intro a; exact le_refl a
  | cons x xs ih =>
    intro a
    exact le_trans (ih (min a x)) (min_le_left a x)

theorem foldl_min_le_mem (xs : List ℝ) :
    ∀ (a x : ℝ), x ∈ xs → xs.foldl min a ≤ x := by
  induction xs with
  | nil => intro a x hx; cases hx
  | cons y ys ih =>
    intro a x hx
    rcases List.mem_cons.mp hx with rfl | hx'
    · exact le_trans (foldl_min_le_init ys (min a x)) (min_le_right a x)
    · exact ih (min a y) x hx'

theorem listMin_le_mem (l : List ℝ) (x : ℝ) (h : x ∈ l) : listMin l ≤ x := by
  cases l with
  | nil => cases h
  | cons a xs =>
    rcases List.mem_cons.mp h with rfl | hx
    · exact foldl_min_le_init xs x
    · exact foldl_min_le_mem xs a x hx

theorem init_le_foldl_max (xs : List ℝ) : ∀ a : ℝ, a ≤ xs.foldl max a := by
  induction xs with
  | nil => intro a; exact le_refl a
  | cons x xs ih =>
    intro a
    exact le_trans (le_max_left a x) (ih (max a x))

theorem mem_le_foldl_max (xs : List ℝ) :
    ∀ (a x : ℝ), x ∈ xs → x ≤ xs.foldl max a := by
  induction xs with
  | nil => intro a x hx; cases hx
  | cons y ys ih =>
    intro a x hx
    rcases List.mem_cons.mp hx with rfl | hx'
    · exact le_trans (le_max_right a x) (init_le_foldl_max ys (max a x))
    · exact ih (max a y) x hx'

theorem mem_le_listMax (l : List ℝ) (x : ℝ) (h : x ∈ l) : x ≤ listMax l := by
  cases l with
  | nil => cases h
  | cons a xs =>
    rcases List.mem_cons.mp h with rfl | hx
    · exact init_le_foldl_max xs x
    · exact mem_le_foldl_max xs a x hx

/-- Claim C6, amended: the z-score scaler stores the population standard
deviation with an exact `0` replaced by `1` (the JS `std || 1` idiom), so
the stored denominator is always strictly positive — the normalization
never divides by zero — but it is *not* floored at `1` (see the
counterexample); the min-max variant guards `max === min` by emitting `0`
and otherwise divides by the non-zero `max - min`, so every output lies in
`[0, 1]`, again without any floor of `1` on the denominator. -/
theorem c6_scale_denominator_amended :
    (∀ (data : List (String → ℝ)) (j : ℕ), j < 6 →
      (prepareData data).std.getD j 0 =
        jsOr (popStd (colOf (extractMatrix data) j)) 1 ∧
      0 < (prepareData data).std.getD j 0) ∧
    (∀ raw : List (List ℝ), ∀ v ∈ dlNormalizeFeatures raw, ∀ x ∈ v,
      0 ≤ x ∧ x ≤ 1) := by
  constructor
  · intro data j hj
    refine ⟨prepareData_std_getD data j hj, ?_⟩
    rw [prepareData_std_getD data j hj, jsOr]
    split
    · norm_num
    · rename_i hne
      exact lt_of_le_of_ne (Real.sqrt_nonneg _) (Ne.symm hne)
  · intro raw v hv x hx
    simp only [dlNormalizeFeatures, List.mem_map] at hv
    obtain ⟨row, hrow, rfl⟩ := hv
    simp only [List.mem_map, List.mem_range] at hx
    obtain ⟨i, -, rfl⟩ := hx
    by_cases hcase : listMax (colOf raw i) = listMin (colOf raw i)
    · rw [if_pos hcase]
      norm_num
    · rw [if_neg hcase]
      have hmem : row.getD i 0 ∈ colOf raw i :=
        List.mem_map_of_mem _ hrow
      have h1 : listMin (colOf raw i) ≤ row.getD i 0 := listMin_le_mem _ _ hmem
      have h2 : row.getD i 0 ≤ listMax (colOf raw i) := mem_le_listMax _ _ hmem
      have hlt : listMin (colOf raw i) < listMax (colOf raw i) :=
        lt_of_le_of_ne (le_trans h1 h2) (Ne.symm hcase)
      constructor
      · exact div_nonneg (by linarith) (by linarith)
      · rw [div_le_one (by linarith)]
        linarith

/-- Witness for C6 at the `[0, 1]` column dataset and a one-cell min-max
table. -/
theorem c6_scale_denominator_amended_witness :
    ((0:ℕ) < 6 ∧
      ((prepareData halfStdData).std.getD 0 0 =
          jsOr (popStd (colOf (extractMatrix halfStdData) 0)) 1 ∧
        0 < (prepareData halfStdData).std.getD 0 0)) ∧
    ([(0:ℝ)] ∈ dlNormalizeFeatures [[5]] ∧ (0:ℝ) ∈ [(0:ℝ)] ∧
      (0 ≤ (0:ℝ) ∧ (0:ℝ) ≤ 1)) := by
  have hd : dlNormalizeFeatures [[5]] = [[0]] := by
    simp [dlNormalizeFeatures, colOf, listMin, listMax, List.range_succ]
  have hv : [(0:ℝ)] ∈ dlNormalizeFeatures [[5]] := by
    rw [hd]
    exact List.mem_singleton.mpr rfl
  refine ⟨⟨by norm_num, c6_scale_denominator_amended.1 halfStdData 0 (by norm_num)⟩,
    hv, List.mem_singleton.mpr rfl, ?_⟩
  exact c6_scale_denominator_amended.2 [[5]] [0] hv 0 (List.mem_singleton.mpr rfl)

/-! ## Scaler statistics are fitted before the split (Claim C10) -/

/-- Claim C10: in the trainer, the scaler's per-feature mean (and std) are
computed over *every* parsed row before the 80/20 split; the validation
split is taken positionally (the last rows, no shuffle) from the normalized
matrix.  Concretely, two five-row datasets that agree on the four rows that
become the training split but differ in the fifth (validation) row get
different fitted means: the validation rows contribute to the statistics
applied to the training data. -/
theorem c10_scaler_fit_before_split :
    (∀ data : List (String → ℝ),
      (prepareData data).mean =
        (List.range 6).map
          (fun j => popMean (colOf (extractMatrix data) j)) ∧
      (∀ j, (colOf (extractMatrix data) j).length = data.length) ∧
      (prepareData data).trainX =
        (prepareLoop (List.range 6) (extractMatrix data)).2.2.take
          ((4 * data.length) / 5) ∧
      (prepareData data).valX =
        (prepareLoop (List.range 6) (extractMatrix data)).2.2.drop
          ((4 * data.length) / 5)) ∧
    (4 * splitDataA.length) / 5 = 4 ∧
    splitDataA.take 4 = splitDataB.take 4 ∧
    (prepareData splitDataA).mean.getD 0 0 = 0 ∧
    (prepareData splitDataB).mean.getD 0 0 = 2 := by
  refine ⟨?_, ?_, ?_, ?_, ?_⟩
  · intro data
    exact ⟨prepareData_mean data, fun j => by simp [colOf, extractMatrix],
      rfl, rfl⟩
  · simp [splitDataA]
  · simp [splitDataA, splitDataB, List.take_replicate,
      List.take_append_of_le_length]
  · rw [prepareData_mean_getD splitDataA 0 (by norm_num)]
    have hcol : colOf (extractMatrix splitDataA) 0 = List.replicate 5 0 := by
      simp [colOf, extractMatrix, splitDataA, featureNames]
    rw [hcol]
    simp [popMean, List.sum_replicate]
  · rw [prepareData_mean_getD splitDataB 0 (by norm_num)]
    have hcol : colOf (extractMatrix splitDataB) 0 =
        [0, 0, 0, 0, 10] := by
      simp [colOf, extractMatrix, splitDataB, featureNames,
        List.replicate_succ]
    rw [hcol]
    simp [popMean]
    norm_num

end Brainrot
